import Mathlib

/-!
Verification of the glyph resonance engine (`src/lib/glyph-renderer.ts` and the
`GlyphAnalyzer` / `ResonanceField` / `Particle` classes) against its
natural-language specification.  JavaScript numbers are modelled as exact
rationals (`ℚ`); transcendental library calls (`Math.sqrt`, `Math.sin`,
`Math.cos`, `Math.atan2`, `Math.PI`) are abstracted into a `MathOracle`
parameter, since no claim depends on their values.  JavaScript strings are
modelled as `String` / `List Char`; the text heuristics in the source only
distinguish Basic Latin characters, and `toLowerJS` models
`String.prototype.toLowerCase` on that range.
-/

namespace Glyph

/-- Characters matched by the JavaScript regex class `\s`
(whitespace, as used in `text.split(/\s+/)` and `String.prototype.trim`). -/
def isSpaceJS (c : Char) : Bool :=
  c = ' ' ∨ c = '\t' ∨ c = '\n' ∨ c = '\r' ∨ c = '\x0b' ∨ c = '\x0c' ∨
  c = ' ' ∨ c = ' ' ∨ (' ' ≤ c ∧ c ≤ ' ') ∨
  c = ' ' ∨ c = ' ' ∨ c = ' ' ∨ c = ' ' ∨
  c = '　' ∨ c = '﻿'

/-- Characters matched by the JavaScript regex class `\w`: `[A-Za-z0-9_]`. -/
def isWordChar (c : Char) : Bool :=
  ('A' ≤ c ∧ c ≤ 'Z') ∨ ('a' ≤ c ∧ c ≤ 'z') ∨ ('0' ≤ c ∧ c ≤ '9') ∨ c = '_'

/-- JavaScript `String.prototype.toLowerCase` restricted to the ASCII range
(all lexicon words in the source are ASCII). -/
def toLowerJS (c : Char) : Char :=
  if 'A' ≤ c ∧ c ≤ 'Z' then Char.ofNat (c.toNat + 32) else c

/-- JavaScript `String.prototype.trim`: strip leading and trailing whitespace. -/
def trimJS (l : List Char) : List Char :=
  ((l.dropWhile isSpaceJS).reverse.dropWhile isSpaceJS).reverse

/-- JavaScript `text.split(regex)` where the regex is a plain character class
(one separator character per split), e.g. `sentence.split(/[,;:]/)`.
Always returns at least one (possibly empty) segment, as in JavaScript. -/
def splitSingle (sep : Char → Bool) : List Char → List (List Char)
  | [] => [[]]
  | c :: rest =>
    if sep c then [] :: splitSingle sep rest
    else
      match splitSingle sep rest with
      | [] => [[c]]
      | s :: ss => (c :: s) :: ss

/-- Collapse the empty segments that a single-character split produces between
two adjacent separators, keeping a leading and a trailing empty segment.
Together with `splitSingle` this realises a JavaScript split on a
one-or-more character class regex such as `/[.!?]+/` or `/\s+/`. -/
def keepLastCollapse : List (List Char) → List (List Char)
  | [] => []
  | [x] => [x]
  | x :: y :: xs =>
    if x.isEmpty then keepLastCollapse (y :: xs)
    else x :: keepLastCollapse (y :: xs)

/-- JavaScript `text.split(/[X]+/)` (split on maximal runs of separator
characters), e.g. `text.split(/\s+/)` and `text.split(/[.!?]+/)`. -/
def splitRuns (sep : Char → Bool) (l : List Char) : List (List Char) :=
  match splitSingle sep l with
  | [] => []
  | x :: xs => x :: keepLastCollapse xs

/-- Separator class of the sentence-splitting regex `/[.!?]+/`. -/
def isSentenceSep (c : Char) : Bool := c = '.' ∨ c = '!' ∨ c = '?'

/-- Separator class of the clause-splitting regex `/[,;:]/`. -/
def isClauseSep (c : Char) : Bool := c = ',' ∨ c = ';' ∨ c = ':'

/-- Whether the whole word `w` occurs at position `i` of `t` (both already
lower-cased): the characters match and both sides sit on a `\b` boundary. -/
def wordAt (w t : List Char) (i : ℕ) : Bool :=
  ((t.drop i).take w.length == w) &&
  (i == 0 || !(isWordChar (t.getD (i - 1) ' '))) &&
  !(isWordChar (t.getD (i + w.length) ' '))

/-- Number of matches of `new RegExp("\\b" + w + "\\b", "gi")` in `t`:
the count of positions carrying a whole-word case-insensitive occurrence
(whole-word matches of a fixed word can never overlap, so the position count
equals the JavaScript global-match count). -/
def wordMatchCount (w : String) (t : List Char) : ℕ :=
  let lt := t.map toLowerJS
  let wl := w.data.map toLowerJS
  (List.range (lt.length + 1)).countP (fun i => wordAt wl lt i)

/-- Number of matches of `/[!?]{2,}/g`: maximal runs of `!`/`?` of length at
least 2.  `run` is the length of the run currently being read. -/
def punctRunsAux : List Char → ℕ → ℕ
  | [], run => if 2 ≤ run then 1 else 0
  | c :: rest, run =>
    if c = '!' ∨ c = '?' then punctRunsAux rest (run + 1)
    else (if 2 ≤ run then 1 else 0) + punctRunsAux rest 0

/-- The `emotionalWords` lexicon of `calculateEmotionalIntensity`. -/
def emotionalWords : List String :=
  ["love", "hate", "fear", "joy", "anger", "sadness", "excitement", "anxiety",
   "passion", "rage", "bliss", "terror", "ecstasy", "despair", "hope", "dread"]

/-- The `intensifiers` lexicon of `calculateEmotionalIntensity`. -/
def intensifiers : List String :=
  ["very", "extremely", "incredibly", "absolutely", "completely"]

/-- The comparison-word alternation of `calculateSymbolicDensity`. -/
def metaphorWords : List String :=
  ["like", "as", "seems", "appears", "resembles"]

/-- The `abstractWords` lexicon of `calculateSymbolicDensity`. -/
def abstractWords : List String :=
  ["consciousness", "reality", "existence", "meaning", "purpose", "soul",
   "spirit", "essence", "truth", "wisdom", "enlightenment", "transcendence"]

/-- The `timeWords` lexicon of `calculateTemporalFlow`. -/
def timeWords : List String :=
  ["now", "then", "before", "after", "during", "while", "when", "until"]

/-- The `transitionWords` lexicon of `calculateTemporalFlow`. -/
def transitionWords : List String :=
  ["however", "therefore", "meanwhile", "consequently", "furthermore"]

/-- Model of `GlyphAnalyzer.calculateCognitiveLoad`. -/
def calculateCognitiveLoad (t : List Char) : ℚ :=
  let words := splitRuns isSpaceJS t
  let avgWordLength : ℚ :=
    ((words.map (fun w => (w.length : ℚ))).sum) / (words.length : ℚ)
  let complexWords : ℕ := words.countP (fun w => 6 < w.length)
  let sentenceComplexity : ℚ :=
    ((splitRuns isSentenceSep t).map
      (fun s => ((splitSingle isClauseSep s).length : ℚ))).sum
  min 100 (avgWordLength * 10 + (complexWords : ℚ) * 2 + sentenceComplexity)

/-- Model of `GlyphAnalyzer.calculateEmotionalIntensity`. -/
def calculateEmotionalIntensity (t : List Char) : ℚ :=
  let punctuationIntensity : ℚ := (punctRunsAux t 0 : ℚ) * 10
  let emotionalScore : ℚ :=
    ((emotionalWords.map (fun w => (wordMatchCount w t : ℚ) * 15)).sum)
  let intensifierScore : ℚ :=
    ((intensifiers.map (fun w => (wordMatchCount w t : ℚ) * 5)).sum)
  min 100 (emotionalScore + intensifierScore + punctuationIntensity)

/-- Model of `GlyphAnalyzer.calculateSymbolicDensity`. -/
def calculateSymbolicDensity (t : List Char) : ℚ :=
  let symbols : ℕ := t.countP (fun c => !(isWordChar c) && !(isSpaceJS c))
  let metaphors : ℕ := (metaphorWords.map (fun w => wordMatchCount w t)).sum
  let abstractScore : ℚ :=
    ((abstractWords.map (fun w => (wordMatchCount w t : ℚ) * 20)).sum)
  min 100 ((symbols : ℚ) * 2 + (metaphors : ℚ) * 10 + abstractScore)

/-- Model of `GlyphAnalyzer.calculateTemporalFlow`. -/
def calculateTemporalFlow (t : List Char) : ℚ :=
  let timeScore : ℚ :=
    ((timeWords.map (fun w => (wordMatchCount w t : ℚ) * 8)).sum)
  let transitionScore : ℚ :=
    ((transitionWords.map (fun w => (wordMatchCount w t : ℚ) * 12)).sum)
  min 100 (timeScore + transitionScore)

/-- Model of `GlyphAnalyzer.findEmergencePoints`. -/
def findEmergencePoints (t : List Char) : List ℚ :=
  let sentences :=
    (splitRuns isSentenceSep t).filter (fun s => !(trimJS s).isEmpty)
  let n := sentences.length
  (List.range n).filterMap (fun (i : ℕ) =>
    match sentences[i]? with
    | some s =>
      if 60 < calculateEmotionalIntensity s ∨ 70 < calculateCognitiveLoad s
      then some ((i : ℚ) / (n : ℚ) * 100)
      else none
    | none => none)

/-- The `themeKeywords` table of `extractThemes`, in insertion order. -/
def themeKeywords : List (String × List String) :=
  [("transformation", ["change", "transform", "evolve", "become", "shift"]),
   ("connection", ["together", "bond", "unite", "connect", "relationship"]),
   ("discovery", ["find", "discover", "reveal", "uncover", "explore"]),
   ("conflict", ["struggle", "fight", "battle", "oppose", "resist"]),
   ("growth", ["grow", "develop", "expand", "progress", "advance"]),
   ("mystery", ["unknown", "secret", "hidden", "mysterious", "enigma"])]

/-- The `moodKeywords` table of `extractMood`, in insertion order. -/
def moodKeywords : List (String × List String) :=
  [("contemplative", ["think", "ponder", "reflect", "consider", "wonder"]),
   ("energetic", ["energy", "power", "force", "dynamic", "vibrant"]),
   ("melancholic", ["sad", "sorrow", "loss", "grief", "melancholy"]),
   ("euphoric", ["joy", "bliss", "ecstasy", "elation", "rapture"]),
   ("mysterious", ["mystery", "enigma", "puzzle", "riddle", "secret"])]

/-- The fixed archetype list of `extractArchetype`. -/
def archetypesList : List String :=
  ["The Seeker", "The Sage", "The Creator", "The Rebel", "The Hero",
   "The Lover", "The Jester", "The Caregiver", "The Ruler", "The Magician"]

/-- Model of `text.toLowerCase().includes(keyword.toLowerCase())`. -/
def containsLower (t : List Char) (kw : String) : Bool :=
  let lt := t.map toLowerJS
  let kl := kw.data.map toLowerJS
  (List.range (lt.length + 1)).any (fun i => (lt.drop i).take kl.length == kl)

/-- Model of `GlyphAnalyzer.extractThemes`. -/
def extractThemes (t : List Char) : List String :=
  let themes :=
    (themeKeywords.filter (fun p => p.2.any (fun kw => containsLower t kw))).map
      (fun p => p.1)
  if themes.isEmpty then ["existence"] else themes

/-- Model of `GlyphAnalyzer.extractMood`. -/
def extractMood (t : List Char) : String :=
  match moodKeywords.find? (fun p => p.2.any (fun kw => containsLower t kw)) with
  | some p => p.1
  | none => "neutral"

/-- Model of `GlyphAnalyzer.extractArchetype`: `archetypes[floor(text.length % 10)]`. -/
def extractArchetype (t : List Char) : String :=
  archetypesList.getD (t.length % archetypesList.length) ""

/-- Model of `GlyphAnalyzer.generateMeaningSignature` (the `await` in the source is
vacuous: the computation is pure). -/
def generateMeaningSignature (t : List Char) : String :=
  (extractArchetype t) ++ " resonance with " ++ (extractMood t) ++
    " undertones, exploring themes of " ++
    (String.intercalate ", " (extractThemes t))

/-- Rendering of a JavaScript number into a template string, for the values
the engine interpolates into colors.  Integral values print exactly as in
JavaScript; non-integral values use the `ℚ` representation (every color
component the claims evaluate is integral). -/
def ratRepr (q : ℚ) : String :=
  if q.den = 1 then toString q.num else toString q

/-- Model of `GlyphAnalyzer.generateGlyphColor`. -/
def generateGlyphColor (c e s : ℚ) : String :=
  let hue : ℤ := ⌊(c + e + s) / 3 * 3.6⌋
  let saturation : ℚ := max 50 e
  let lightness : ℚ := max 30 (min 70 (100 - c))
  "hsl(" ++ toString hue ++ ", " ++ ratRepr saturation ++ "%, " ++
    ratRepr lightness ++ "%)"

/-- The fixed shape list of `generateGlyphData`. -/
def shapesList : List String :=
  ["circle", "triangle", "square", "hexagon", "star", "spiral"]

/-- The `glyphData` record produced by the analyzer. -/
structure GlyphData where
  shape : String
  frequency : ℚ
  color : String
  complexity : ℤ
  deriving DecidableEq

/-- Model of `GlyphAnalyzer.generateGlyphData`.  Here `Int.tmod` is JavaScript `%`
(truncated remainder); a negative index would read `undefined` in
JavaScript, modelled by the string "undefined". -/
def generateGlyphData (c e s : ℚ) : GlyphData :=
  let shapeIndex : ℤ := Int.tmod ⌊(c + e) / 33⌋ (shapesList.length : ℤ)
  { shape :=
      if 0 ≤ shapeIndex then shapesList.getD shapeIndex.toNat "undefined"
      else "undefined"
    frequency := max 0.5 (e / 100)
    color := generateGlyphColor c e s
    complexity := ⌊(c + s) / 20⌋ }

/-- The `ResonanceAnalysis` record of `ai-providers.ts`. -/
structure ResonanceAnalysis where
  cognitiveLoad : ℚ
  emotionalIntensity : ℚ
  symbolicDensity : ℚ
  temporalFlow : ℚ
  emergencePoints : List ℚ
  meaningSignature : String
  glyphData : GlyphData
  deriving DecidableEq

/-- Model of `GlyphAnalyzer.analyzeText`.  The heuristics are total, so the
`try`/`catch` body always completes and the `catch` branch
(`getDefaultAnalysis`) is unreachable; the local `words`/`sentences`
bindings of the source are dead code and elided. -/
def analyzeText (text : String) : ResonanceAnalysis :=
  let t := text.data
  let cognitiveLoad := calculateCognitiveLoad t
  let emotionalIntensity := calculateEmotionalIntensity t
  let symbolicDensity := calculateSymbolicDensity t
  let temporalFlow := calculateTemporalFlow t
  { cognitiveLoad := cognitiveLoad
    emotionalIntensity := emotionalIntensity
    symbolicDensity := symbolicDensity
    temporalFlow := temporalFlow
    emergencePoints := findEmergencePoints t
    meaningSignature := generateMeaningSignature t
    glyphData := generateGlyphData cognitiveLoad emotionalIntensity symbolicDensity }

/-- Model of `GlyphAnalyzer.getDefaultAnalysis`. -/
def getDefaultAnalysis : ResonanceAnalysis :=
  { cognitiveLoad := 50
    emotionalIntensity := 30
    symbolicDensity := 40
    temporalFlow := 35
    emergencePoints := [25, 75]
    meaningSignature := "Neutral resonance with contemplative undertones"
    glyphData :=
      { shape := "circle"
        frequency := 0.5
        color := "#8b5cf6"
        complexity := 3 } }

/-- Is the character a hexadecimal digit, and its value. -/
def hexDigitVal (c : Char) : Option ℕ :=
  if '0' ≤ c ∧ c ≤ '9' then some (c.toNat - '0'.toNat)
  else if 'a' ≤ c ∧ c ≤ 'f' then some (c.toNat - 'a'.toNat + 10)
  else if 'A' ≤ c ∧ c ≤ 'F' then some (c.toNat - 'A'.toNat + 10)
  else none

/-- Accumulate the leading hexadecimal digits of `l`; `none` when there is
no leading digit (JavaScript `NaN`). -/
def parseHexDigits (l : List Char) : Option ℕ :=
  let digits := l.takeWhile (fun c => (hexDigitVal c).isSome)
  if digits.isEmpty then none
  else some (digits.foldl (fun acc c => acc * 16 + (hexDigitVal c).getD 0) 0)

/-- JavaScript `parseInt(s, 16)`: skip leading whitespace, read an optional
sign, an optional `0x`/`0X` prefix, then the longest run of hex digits;
`none` models `NaN`. -/
def parseIntHex (s : List Char) : Option ℤ :=
  let l := s.dropWhile isSpaceJS
  match l with
  | '-' :: rest => (parseHexDigits (strip0x rest)).map (fun n => -(n : ℤ))
  | '+' :: rest => (parseHexDigits (strip0x rest)).map (fun n => (n : ℤ))
  | _ => (parseHexDigits (strip0x l)).map (fun n => (n : ℤ))
where
  strip0x : List Char → List Char
    | '0' :: 'x' :: rest => rest
    | '0' :: 'X' :: rest => rest
    | l => l

/-- JavaScript `s.slice(a, b)` for `0 ≤ a ≤ b`. -/
def jsSlice (s : List Char) (a b : ℕ) : List Char := (s.take b).drop a

/-- The value of a CSS `rgba(r, g, b, a)` expression; `none` components
model `NaN` (which renders as the text "NaN", an invalid CSS color). -/
structure Rgba where
  r : Option ℤ
  g : Option ℤ
  b : Option ℤ
  a : ℚ
  deriving DecidableEq

/-- Model of `GlyphRenderer.hexToRgba` (identical private helper on `Particle`):
parse three two-character slices of the string as hexadecimal integers.
No validation and no fallback exist in the source. -/
def hexToRgba (hex : String) (alpha : ℚ) : Rgba :=
  let l := hex.data
  { r := parseIntHex (jsSlice l 1 3)
    g := parseIntHex (jsSlice l 3 5)
    b := parseIntHex (jsSlice l 5 7)
    a := alpha }

/-- Abstraction of the `Math` library's transcendental functions and `PI`
(IEEE floats in JavaScript; no claim depends on their values). -/
structure MathOracle where
  sqrt : ℚ → ℚ
  sin : ℚ → ℚ
  cos : ℚ → ℚ
  atan2 : ℚ → ℚ → ℚ
  pi : ℚ

/-- A trivial oracle instance used to evaluate claims at concrete inputs. -/
def zeroOracle : MathOracle :=
  { sqrt := fun _ => 0, sin := fun _ => 0, cos := fun _ => 0,
    atan2 := fun _ _ => 0, pi := 0 }

/-- The mutable state of one `Particle`. -/
structure Particle where
  x : ℚ
  y : ℚ
  vx : ℚ
  vy : ℚ
  color : String
  size : ℚ
  life : ℚ
  maxLife : ℚ
  deriving DecidableEq

/-- The four `Math.random()` draws consumed by `Particle.respawn`,
in source order: position x, position y, velocity x, velocity y. -/
structure Rand4 where
  r1 : ℚ
  r2 : ℚ
  r3 : ℚ
  r4 : ℚ

/-- Model of `Particle.respawn`: the position is drawn inside a hard-coded 800×600
box (the source comments read "Assuming canvas width/height"); `maxLife`,
`size` and `color` are retained. -/
def particleRespawn (rnd : Rand4) (p : Particle) : Particle :=
  { p with
    x := rnd.r1 * 800
    y := rnd.r2 * 600
    vx := (rnd.r3 - 0.5) * 2
    vy := (rnd.r4 - 0.5) * 2
    life := p.maxLife }

/-- Model of `Particle.update(centerX, centerY, frequency, time)`.  The `time`
argument is unused in the source as well.  `rnd` supplies the random draws
consumed if the particle respawns this tick. -/
def particleUpdate (o : MathOracle) (rnd : Rand4) (p : Particle)
    (centerX centerY frequency _time : ℚ) : Particle :=
  let dx := centerX - p.x
  let dy := centerY - p.y
  let distance := o.sqrt (dx * dx + dy * dy)
  let force := 0.001 * frequency
  let vxa := if 0 < distance then p.vx + dx / distance * force else p.vx
  let vya := if 0 < distance then p.vy + dy / distance * force else p.vy
  let angle := o.atan2 dy dx + o.pi / 2
  let vxb := vxa + o.cos angle * 0.01 * frequency
  let vyb := vya + o.sin angle * 0.01 * frequency
  let x1 := p.x + vxb
  let y1 := p.y + vyb
  let vxc := vxb * 0.99
  let vyc := vyb * 0.99
  let life1 := p.life - 1
  let moved :=
    { p with x := x1, y := y1, vx := vxc, vy := vyc, life := life1 }
  if life1 ≤ 0 then particleRespawn rnd moved else moved

/-- Model of `ResonanceField.initializeField` (also the body of `resize`): a fresh
`ceil(height/20) × ceil(width/20)` grid of zeros (`gridSize = 20`; a
non-positive bound yields zero loop iterations, hence `Int.toNat`). -/
def initializeField (width height : ℚ) : List (List ℚ) :=
  let cols := (⌈width / 20⌉).toNat
  let rows := (⌈height / 20⌉).toNat
  List.replicate rows (List.replicate cols 0)

/-- Model of `ResonanceField.update`.  Reading `this.field[0].length` of an empty
grid throws a `TypeError` in JavaScript, modelled by `none`. -/
def fieldUpdate (o : MathOracle) (a : ResonanceAnalysis) (time : ℚ)
    (field : List (List ℚ)) : Option (List (List ℚ)) :=
  match field with
  | [] => none
  | r0 :: _ =>
    let cols := r0.length
    let rows := field.length
    let centerX : ℚ := (cols : ℚ) / 2
    let centerY : ℚ := (rows : ℚ) / 2
    some ((List.range rows).map (fun (i : ℕ) =>
      (List.range cols).map (fun (j : ℕ) =>
        let dx := (j : ℚ) - centerX
        let dy := (i : ℚ) - centerY
        let distance := o.sqrt (dx * dx + dy * dy)
        let wave1 := o.sin (distance * 0.3 - time * a.glyphData.frequency * 2) *
          a.emotionalIntensity / 100
        let wave2 := o.cos (distance * 0.2 + time * a.temporalFlow / 50) *
          a.cognitiveLoad / 100
        (wave1 + wave2) * 0.5)))

/-- Model of `ResonanceField.render`, abstracted to the list of `fillRect` calls it
issues: `(row, column, opacity)` per painted cell.  The source loops run
`i < rows - 1` and `j < cols - 1`; reading `this.field[0].length` of an
empty grid throws, modelled by `none`. -/
def fieldRender (field : List (List ℚ)) : Option (List (ℕ × ℕ × ℚ)) :=
  match field with
  | [] => none
  | r0 :: _ =>
    let cols := r0.length
    let rows := field.length
    some ((List.range (rows - 1)).flatMap (fun i =>
      (List.range (cols - 1)).filterMap (fun j =>
        let value := |(field.getD i []).getD j 0|
        let opacity := min 0.3 (value * 0.5)
        if 0.05 < opacity then some (i, j, opacity) else none)))

/-- The scheduling-relevant state of a `GlyphRenderer` together with the
host's frame scheduler: `pending` is the queue of callback handles
registered via `requestAnimationFrame` and not yet fired or cancelled;
`nextId` is the next handle the host will hand out (handles start at 1, as
in browsers); `animationId` is the renderer's `this.animationId` field. -/
structure SchedState where
  pending : List ℕ
  nextId : ℕ
  animationId : Option ℕ
  deriving DecidableEq

/-- A freshly constructed renderer: no pending callback, `animationId`
initialised to `null`. -/
def initSched : SchedState :=
  { pending := [], nextId := 1, animationId := none }

/-- Model of `requestAnimationFrame`: register a callback, return its fresh handle. -/
def rafRequest (s : SchedState) : ℕ × SchedState :=
  (s.nextId,
   { s with pending := s.pending ++ [s.nextId], nextId := s.nextId + 1 })

/-- Model of `cancelAnimationFrame(id)`: withdraw a pending callback. -/
def rafCancel (id : ℕ) (s : SchedState) : SchedState :=
  { s with pending := s.pending.erase id }

/-- JavaScript truthiness of `this.animationId : number | null`. -/
def truthyId : Option ℕ → Bool
  | none => false
  | some n => n != 0

/-- Model of `GlyphRenderer.startAnimation`, restricted to its scheduling effect:
cancel the previous callback when `this.animationId` is truthy, then
schedule the `animate` closure and record its handle. -/
def startAnimation (s : SchedState) : SchedState :=
  let s1 :=
    match s.animationId with
    | some id => if id ≠ 0 then rafCancel id s else s
    | none => s
  let r := rafRequest s1
  { r.2 with animationId := some r.1 }

/-- Model of `GlyphRenderer.stopAnimation`: when `this.animationId` is truthy,
cancel it and reset the field to `null`; otherwise do nothing. -/
def stopAnimation (s : SchedState) : SchedState :=
  match s.animationId with
  | some id =>
    if id ≠ 0 then { rafCancel id s with animationId := none } else s
  | none => s

/-- The host fires the oldest pending callback: the `animate` closure draws
a frame and re-registers itself, storing the new handle in
`this.animationId`.  With no pending callback nothing happens. -/
def fireTick (s : SchedState) : SchedState :=
  match s.pending with
  | [] => s
  | _ :: rest =>
    let r := rafRequest { s with pending := rest }
    { r.2 with animationId := some r.1 }

/-- The externally observable events that drive the scheduler state. -/
inductive SchedOp
  | start
  | stop
  | tick
  deriving DecidableEq

/-- One scheduler transition. -/
def schedStep (s : SchedState) : SchedOp → SchedState
  | SchedOp.start => startAnimation s
  | SchedOp.stop => stopAnimation s
  | SchedOp.tick => fireTick s

/-- Run a sequence of start/stop/tick events from the initial state. -/
def schedRun (ops : List SchedOp) : SchedState :=
  ops.foldl schedStep initSched

/-- Specification-side formula for the glyph shape (claim C6): the fixed
6-entry shape list indexed by `floor((cognitive+emotional)/33) mod 6`. -/
def glyphShapeSpec (c e : ℚ) : String :=
  shapesList.getD ((⌊(c + e) / 33⌋ % 6).toNat) ""

/-- Specification-side formula for the glyph frequency (claim C6):
`max(0.5, emotional/100)`. -/
def glyphFrequencySpec (e : ℚ) : ℚ := max 0.5 (e / 100)

/-- Specification-side formula for the glyph complexity (claim C6):
`floor((cognitive+symbolic)/20)`. -/
def glyphComplexitySpec (c s : ℚ) : ℤ := ⌊(c + s) / 20⌋

/-- Scheduler invariant: the pending queue is exactly the callback recorded
in `animationId`, handles are positive and below the host's counter. -/
def SchedInv (s : SchedState) : Prop :=
  s.pending = s.animationId.toList ∧
  (∀ id, s.animationId = some id → 1 ≤ id ∧ id < s.nextId) ∧
  1 ≤ s.nextId

end Glyph

namespace Glyph

/-! ### Helper lemmas -/

lemma startAnimation_eq_none {s : SchedState} (hA : s.animationId = none) :
    startAnimation s =
      { pending := s.pending ++ [s.nextId], nextId := s.nextId + 1,
        animationId := some s.nextId } := by
  unfold startAnimation rafRequest rafCancel
  rw [hA]

lemma startAnimation_eq_some {s : SchedState} {k : ℕ}
    (hA : s.animationId = some k) (hk : k ≠ 0) :
    startAnimation s =
      { pending := s.pending.erase k ++ [s.nextId], nextId := s.nextId + 1,
        animationId := some s.nextId } := by
  unfold startAnimation rafRequest rafCancel
  rw [hA]
  simp [hk]

lemma stopAnimation_eq_none {s : SchedState} (hA : s.animationId = none) :
    stopAnimation s = s := by
  unfold stopAnimation
  rw [hA]

lemma stopAnimation_eq_some {s : SchedState} {k : ℕ}
    (hA : s.animationId = some k) (hk : k ≠ 0) :
    stopAnimation s =
      { pending := s.pending.erase k, nextId := s.nextId,
        animationId := none } := by
  unfold stopAnimation rafCancel
  rw [hA]
  simp [hk]

lemma stopAnimation_eq_zero {s : SchedState} (hA : s.animationId = some 0) :
    stopAnimation s = s := by
  unfold stopAnimation
  rw [hA]
  simp

lemma fireTick_eq_nil {s : SchedState} (hA : s.pending = []) :
    fireTick s = s := by
  unfold fireTick
  rw [hA]

lemma fireTick_eq_cons {s : SchedState} {p : ℕ} {rest : List ℕ}
    (hA : s.pending = p :: rest) :
    fireTick s =
      { pending := rest ++ [s.nextId], nextId := s.nextId + 1,
        animationId := some s.nextId } := by
  unfold fireTick rafRequest
  rw [hA]

lemma schedInv_init : SchedInv initSched := by
  refine ⟨rfl, ?_, le_refl 1⟩
  intro id h
  simp [initSched] at h

lemma schedInv_start {s : SchedState} (h : SchedInv s) :
    SchedInv (startAnimation s) := by
  obtain ⟨hp, hid, hn⟩ := h
  cases hA : s.animationId with
  | none =>
    have hpnil : s.pending = [] := by simp [hp, hA]
    rw [startAnimation_eq_none hA]
    refine ⟨by simp [hpnil], ?_, by dsimp only; omega⟩
    intro id hidq
    dsimp only at hidq ⊢
    simp at hidq
    omega
  | some k =>
    have hk := hid k hA
    have hk0 : k ≠ 0 := by omega
    have hpk : s.pending = [k] := by simp [hp, hA]
    rw [startAnimation_eq_some hA hk0]
    refine ⟨by simp [hpk], ?_, by dsimp only; omega⟩
    intro id hidq
    dsimp only at hidq ⊢
    simp at hidq
    omega

lemma schedInv_stop {s : SchedState} (h : SchedInv s) :
    SchedInv (stopAnimation s) := by
  obtain ⟨hp, hid, hn⟩ := h
  cases hA : s.animationId with
  | none => rw [stopAnimation_eq_none hA]; exact ⟨hp, hid, hn⟩
  | some k =>
    have hk := hid k hA
    have hk0 : k ≠ 0 := by omega
    have hpk : s.pending = [k] := by simp [hp, hA]
    rw [stopAnimation_eq_some hA hk0]
    refine ⟨by simp [hpk], ?_, hn⟩
    intro id hidq
    simp at hidq

lemma schedInv_tick {s : SchedState} (h : SchedInv s) :
    SchedInv (fireTick s) := by
  obtain ⟨hp, hid, hn⟩ := h
  cases hpend : s.pending with
  | nil => rw [fireTick_eq_nil hpend]; exact ⟨hp, hid, hn⟩
  | cons p rest =>
    have hrest : rest = [] := by
      rw [hpend] at hp
      cases hA : s.animationId with
      | none => rw [hA] at hp; simp at hp
      | some k => rw [hA] at hp; simp at hp; exact hp.2
    subst hrest
    rw [fireTick_eq_cons hpend]
    refine ⟨by simp, ?_, by dsimp only; omega⟩
    intro id hidq
    dsimp only at hidq ⊢
    simp at hidq
    omega

lemma schedInv_step {s : SchedState} (h : SchedInv s) (op : SchedOp) :
    SchedInv (schedStep s op) := by
  cases op with
  | start => exact schedInv_start h
  | stop => exact schedInv_stop h
  | tick => exact schedInv_tick h

lemma schedInv_foldl (ops : List SchedOp) :
    ∀ s : SchedState, SchedInv s → SchedInv (ops.foldl schedStep s) := by
  induction ops with
  | nil => intro s h; exact h
  | cons op rest ih => intro s h; exact ih _ (schedInv_step h op)

lemma schedInv_run (ops : List SchedOp) : SchedInv (schedRun ops) :=
  schedInv_foldl ops _ schedInv_init

lemma stopAnimation_idem (s : SchedState) :
    stopAnimation (stopAnimation s) = stopAnimation s := by
  cases hA : s.animationId with
  | none => rw [stopAnimation_eq_none hA, stopAnimation_eq_none hA]
  | some k =>
    by_cases hk : k = 0
    · subst hk
      rw [stopAnimation_eq_zero hA, stopAnimation_eq_zero hA]
    · rw [stopAnimation_eq_some hA hk]
      exact stopAnimation_eq_none rfl

lemma startAnimation_pending {s : SchedState} (h : SchedInv s) :
    (startAnimation s).pending = [s.nextId] := by
  obtain ⟨hp, hid, _⟩ := h
  cases hA : s.animationId with
  | none =>
    have hpnil : s.pending = [] := by simp [hp, hA]
    rw [startAnimation_eq_none hA]
    simp [hpnil]
  | some k =>
    have hk := hid k hA
    have hk0 : k ≠ 0 := by omega
    have hpk : s.pending = [k] := by simp [hp, hA]
    rw [startAnimation_eq_some hA hk0]
    simp [hpk]

lemma shapesList_getD_eq (k : ℕ) (hk : k < 6) (d d' : String) :
    shapesList.getD k d = shapesList.getD k d' := by
  interval_cases k <;> rfl

lemma calcCog_nil : calculateCognitiveLoad ("".data) = 1 := by
  simp [calculateCognitiveLoad, splitRuns, splitSingle, keepLastCollapse,
    isSpaceJS, isSentenceSep, isClauseSep]

lemma calcEmo_nil : calculateEmotionalIntensity ("".data) = 0 := by
  simp [calculateEmotionalIntensity, wordMatchCount, wordAt, punctRunsAux,
    toLowerJS, emotionalWords, intensifiers]

lemma calcSym_nil : calculateSymbolicDensity ("".data) = 0 := by
  simp [calculateSymbolicDensity, wordMatchCount, wordAt, toLowerJS,
    metaphorWords, abstractWords, isWordChar, isSpaceJS]

lemma calcTmp_nil : calculateTemporalFlow ("".data) = 0 := by
  simp [calculateTemporalFlow, wordMatchCount, wordAt, toLowerJS, timeWords,
    transitionWords]

lemma findPts_nil : findEmergencePoints ("".data) = [] := by
  simp [findEmergencePoints, splitRuns, splitSingle, keepLastCollapse, trimJS,
    isSpaceJS, isSentenceSep]

lemma signature_nil : generateMeaningSignature ("".data) =
    "The Seeker resonance with neutral undertones, exploring themes of existence" := by
  simp [generateMeaningSignature, extractThemes, extractMood, extractArchetype,
    themeKeywords, moodKeywords, archetypesList, containsLower, toLowerJS]
  all_goals decide

lemma glyphData_one_zero_zero : generateGlyphData 1 0 0 =
    { shape := "circle", frequency := 1/2, color := "hsl(1, 50%, 70%)",
      complexity := 0 } := by
  have h1 : ⌊((1:ℚ)+0)/33⌋ = 0 := by norm_num
  have h2 : ⌊((1:ℚ)+0+0)/3 * 3.6⌋ = 1 := by norm_num
  have h3 : max (50:ℚ) 0 = 50 := by norm_num
  have h4 : max (30:ℚ) (min 70 (100-1)) = 70 := by norm_num
  simp [generateGlyphData, generateGlyphColor, ratRepr, shapesList, h1, h2, h3, h4]
  norm_num
  all_goals decide

lemma analyzeText_nil : analyzeText "" =
    { cognitiveLoad := 1
      emotionalIntensity := 0
      symbolicDensity := 0
      temporalFlow := 0
      emergencePoints := []
      meaningSignature :=
        "The Seeker resonance with neutral undertones, exploring themes of existence"
      glyphData :=
        { shape := "circle"
          frequency := 1/2
          color := "hsl(1, 50%, 70%)"
          complexity := 0 } } := by
  unfold analyzeText
  dsimp only
  rw [calcCog_nil, calcEmo_nil, calcSym_nil, calcTmp_nil, findPts_nil,
    signature_nil, glyphData_one_zero_zero]

/-! ### Claim theorems -/

/-- C2 (counterexample): calling `analyzeText` on the empty string does NOT
return the documented default vector — the heuristics cannot fail on `""`,
so the `catch` branch never runs, and the computed vector has
`cognitiveLoad = 1`, not `50`. -/
theorem c2_empty_not_default :
    analyzeText "" ≠ getDefaultAnalysis ∧
    (analyzeText "").cognitiveLoad = 1 ∧
    getDefaultAnalysis.cognitiveLoad = 50 := by
  have h1 : (analyzeText "").cognitiveLoad = 1 := by rw [analyzeText_nil]
  refine ⟨?_, h1, rfl⟩
  intro heq
  rw [heq] at h1
  norm_num [getDefaultAnalysis] at h1

/-- C2 (amended): `analyzeText ""` returns the concrete vector computed by
the heuristics — cognitiveLoad 1 (one sentence segment of one clause),
all other scalars 0, no emergence points, signature
"The Seeker resonance with neutral undertones, exploring themes of
existence", and glyph data circle / frequency 0.5 /
color "hsl(1, 50%, 70%)" / complexity 0 — not the documented default. -/
theorem c2_empty_analysis :
    analyzeText "" =
      { cognitiveLoad := 1
        emotionalIntensity := 0
        symbolicDensity := 0
        temporalFlow := 0
        emergencePoints := []
        meaningSignature :=
          "The Seeker resonance with neutral undertones, exploring themes of existence"
        glyphData :=
          { shape := "circle"
            frequency := 1/2
            color := "hsl(1, 50%, 70%)"
            complexity := 0 } } :=
  analyzeText_nil

/-- C3 (counterexample): a particle of a 100×100 canvas (attraction center
(50,50)) whose life reaches 0 this tick respawns at `x = 0.9 * 800 = 720`,
outside the current canvas bounds — `Particle.respawn` uses the hard-coded
800×600 box, not the bounds in effect at respawn time. -/
theorem c3_respawn_outside_canvas :
    (particleUpdate zeroOracle ⟨9/10, 1/2, 1/2, 1/2⟩
        ⟨10, 10, 0, 0, "#8b5cf6", 2, 1, 120⟩ 50 50 1 0).x = 720 ∧
    ¬ (particleUpdate zeroOracle ⟨9/10, 1/2, 1/2, 1/2⟩
        ⟨10, 10, 0, 0, "#8b5cf6", 2, 1, 120⟩ 50 50 1 0).x ≤ 100 := by
  norm_num [particleUpdate, particleRespawn, zeroOracle]

/-- C3 (amended): a particle whose life reaches 0 during a tick is respawned
on that same tick with `life = maxLife` and a position drawn uniformly
inside the fixed 800×600 box (`x = rand·800`, `y = rand·600`), regardless
of the current canvas dimensions. -/
theorem c3_respawn_same_tick (o : MathOracle) (rnd : Rand4) (p : Particle)
    (cx cy freq t : ℚ) (hlife : p.life ≤ 1)
    (h10 : 0 ≤ rnd.r1) (h11 : rnd.r1 < 1)
    (h20 : 0 ≤ rnd.r2) (h21 : rnd.r2 < 1) :
    (particleUpdate o rnd p cx cy freq t).life = p.maxLife ∧
    (particleUpdate o rnd p cx cy freq t).x = rnd.r1 * 800 ∧
    (particleUpdate o rnd p cx cy freq t).y = rnd.r2 * 600 ∧
    0 ≤ (particleUpdate o rnd p cx cy freq t).x ∧
    (particleUpdate o rnd p cx cy freq t).x < 800 ∧
    0 ≤ (particleUpdate o rnd p cx cy freq t).y ∧
    (particleUpdate o rnd p cx cy freq t).y < 600 := by
  have hcond : p.life - 1 ≤ 0 := by linarith
  unfold particleUpdate particleRespawn
  dsimp only
  rw [if_pos hcond]
  refine ⟨rfl, rfl, rfl, ?_, ?_, ?_, ?_⟩
  · exact mul_nonneg h10 (by norm_num)
  · nlinarith
  · exact mul_nonneg h20 (by norm_num)
  · nlinarith

/-- C3 (witness). -/
theorem c3_respawn_same_tick_witness :
    ((1:ℚ)/2 ≤ 1) ∧
    (particleUpdate zeroOracle ⟨1/4, 1/8, 1/2, 1/2⟩
        ⟨30, 40, 1, 1, "#8b5cf6", 2, 1/2, 77⟩ 50 50 1 0).life = 77 := by
  refine ⟨by norm_num, ?_⟩
  exact (c3_respawn_same_tick zeroOracle ⟨1/4, 1/8, 1/2, 1/2⟩
    ⟨30, 40, 1, 1, "#8b5cf6", 2, 1/2, 77⟩ 50 50 1 0
    (by norm_num) (by norm_num) (by norm_num) (by norm_num) (by norm_num)).1

/-- C4: for every sequence of start/stop/tick events from the initial
state, at most one scheduled animation callback is pending; a further
`startAnimation` first cancels the previous callback, leaving exactly the
freshly scheduled one pending; and `stopAnimation` is idempotent, so a
second consecutive stop is a no-op. -/
theorem c4_single_scheduled_callback (ops : List SchedOp) :
    (schedRun ops).pending.length ≤ 1 ∧
    (startAnimation (schedRun ops)).pending = [(schedRun ops).nextId] ∧
    stopAnimation (stopAnimation (schedRun ops)) =
      stopAnimation (schedRun ops) := by
  have h := schedInv_run ops
  refine ⟨?_, startAnimation_pending h, stopAnimation_idem _⟩
  rw [h.1]
  cases (schedRun ops).animationId <;> simp

/-- C5: the color the analyzer attaches to glyph data is an `hsl(...)`
string, and the renderer's `hexToRgba` conversion of it produces NaN
red/green/blue components (an invalid `rgba(NaN, NaN, NaN, α)` color) —
there is no fallback to a fixed neutral color in the code, contradicting
the specified error-handling design. -/
theorem c5_hexToRgba_nan_on_hsl :
    (analyzeText "").glyphData.color = "hsl(1, 50%, 70%)" ∧
    hexToRgba (analyzeText "").glyphData.color 1 =
      { r := none, g := none, b := none, a := 1 } ∧
    hexToRgba "#8b5cf6" 1 = { r := some 139, g := some 92, b := some 246, a := 1 } := by
  have hcol : (analyzeText "").glyphData.color = "hsl(1, 50%, 70%)" := by
    rw [analyzeText_nil]
  refine ⟨hcol, ?_, by decide⟩
  rw [hcol]
  decide

/-- C6: for all cognitive, emotional, symbolic scores in [0,100], the glyph
mapping returns the shape list entry at `floor((cognitive+emotional)/33)
mod 6`, frequency `max(0.5, emotional/100)`, and complexity
`floor((cognitive+symbolic)/20)` — the source's truncated-remainder `%` on
a non-negative index agrees with the specified `mod`. -/
theorem c6_glyph_mapping (c e s : ℚ)
    (hc0 : 0 ≤ c) (hc1 : c ≤ 100) (he0 : 0 ≤ e) (he1 : e ≤ 100)
    (hs0 : 0 ≤ s) (hs1 : s ≤ 100) :
    (generateGlyphData c e s).shape = glyphShapeSpec c e ∧
    (generateGlyphData c e s).frequency = glyphFrequencySpec e ∧
    (generateGlyphData c e s).complexity = glyphComplexitySpec c s := by
  refine ⟨?_, rfl, rfl⟩
  have hfl : (0:ℤ) ≤ ⌊(c + e) / 33⌋ := by
    apply Int.floor_nonneg.mpr
    positivity
  have hlen : ((shapesList.length : ℤ)) = 6 := by decide
  have htm : Int.tmod ⌊(c + e) / 33⌋ (shapesList.length : ℤ) =
      ⌊(c + e) / 33⌋ % 6 := by
    rw [hlen]
    exact Int.tmod_eq_emod hfl (by norm_num)
  have hmodnn : (0:ℤ) ≤ ⌊(c + e) / 33⌋ % 6 := Int.emod_nonneg _ (by norm_num)
  have hmodlt : ⌊(c + e) / 33⌋ % 6 < 6 := Int.emod_lt_of_pos _ (by norm_num)
  show (if 0 ≤ Int.tmod ⌊(c + e) / 33⌋ (shapesList.length : ℤ) then
      shapesList.getD (Int.tmod ⌊(c + e) / 33⌋ (shapesList.length : ℤ)).toNat "undefined"
    else "undefined") = glyphShapeSpec c e
  rw [htm, if_pos hmodnn]
  unfold glyphShapeSpec
  apply shapesList_getD_eq
  omega

lemma initializeField_replicate (w h : ℚ) :
    initializeField w h =
      List.replicate (⌈h / 20⌉).toNat
        (List.replicate (⌈w / 20⌉).toNat 0) := rfl

lemma fieldUpdate_cons_dims (o : MathOracle) (a : ResonanceAnalysis)
    (time : ℚ) (r0 : List ℚ) (rest : List (List ℚ)) :
    ∃ g, fieldUpdate o a time (r0 :: rest) = some g ∧
      g.length = (r0 :: rest).length ∧ ∀ row ∈ g, row.length = r0.length := by
  refine ⟨_, rfl, ?_, ?_⟩
  · simp [fieldUpdate]
  · intro row hrow
    simp only [fieldUpdate, List.mem_map] at hrow
    obtain ⟨i, hi, hrow⟩ := hrow
    rw [← hrow]
    simp

lemma ceil_toNat_zero_of_nonpos {h : ℚ} (hh : h ≤ 0) :
    (⌈h / 20⌉).toNat = 0 := by
  have hdiv : h / 20 ≤ 0 := by linarith
  have hceil : ⌈h / 20⌉ ≤ 0 := by
    rw [Int.ceil_le]
    push_cast
    linarith
  omega

/-- C7 (counterexample): after `resize(400, 0)` the grid has zero rows, and
the next `update` reads `this.field[0].length` of an empty array and throws
(`none`) — so the claim's "for every width and height" fails at height 0. -/
theorem c7_resize_zero_then_update_throws :
    fieldUpdate zeroOracle getDefaultAnalysis 0 (initializeField 400 0) =
      none := by
  have h2c : ⌈(0:ℚ) / 20⌉ = 0 := by norm_num
  have h2 : (⌈(0:ℚ) / 20⌉).toNat = 0 := by rw [h2c]; rfl
  rw [initializeField_replicate, h2]
  rfl

/-- C7 (amended): for every width and height with `height > 0`,
`resize(width, height)` rebuilds the grid to `ceil(height/20)` rows of
`ceil(width/20)` zeroed cells and never throws, and a subsequent `update`
succeeds and operates on a grid whose dimensions match the new size. -/
theorem c7_resize_rebuilds_grid (w h : ℚ) (o : MathOracle)
    (a : ResonanceAnalysis) (time : ℚ) (hh : 0 < h) :
    (initializeField w h).length = (⌈h / 20⌉).toNat ∧
    (∀ row ∈ initializeField w h,
      row.length = (⌈w / 20⌉).toNat ∧ ∀ x ∈ row, x = (0:ℚ)) ∧
    (fieldUpdate o a time (initializeField w h)).isSome = true ∧
    ∀ g, fieldUpdate o a time (initializeField w h) = some g →
      g.length = (⌈h / 20⌉).toNat ∧
      ∀ row ∈ g, row.length = (⌈w / 20⌉).toNat := by
  have hrows : 1 ≤ (⌈h / 20⌉).toNat := by
    have h1 : (1:ℤ) ≤ ⌈h / 20⌉ := Int.one_le_ceil_iff.mpr (by positivity)
    omega
  obtain ⟨n, hn⟩ : ∃ n, (⌈h / 20⌉).toNat = n + 1 :=
    ⟨(⌈h / 20⌉).toNat - 1, by omega⟩
  have hfield : initializeField w h =
      (List.replicate (⌈w / 20⌉).toNat (0:ℚ)) ::
        List.replicate n (List.replicate (⌈w / 20⌉).toNat 0) := by
    rw [initializeField_replicate, hn, List.replicate_succ]
  obtain ⟨g, hg, hglen, hgrow⟩ := fieldUpdate_cons_dims o a time
    (List.replicate (⌈w / 20⌉).toNat (0:ℚ))
    (List.replicate n (List.replicate (⌈w / 20⌉).toNat 0))
  refine ⟨by rw [initializeField_replicate]; simp, ?_, ?_, ?_⟩
  · intro row hrow
    rw [initializeField_replicate] at hrow
    rw [List.mem_replicate] at hrow
    rw [hrow.2]
    refine ⟨by simp, ?_⟩
    intro x hx
    rw [List.mem_replicate] at hx
    exact hx.2
  · rw [hfield, hg]
    rfl
  · intro g2 hg2
    rw [hfield] at hg2
    rw [hg2] at hg
    obtain rfl := Option.some.inj hg
    constructor
    · rw [hglen]
      simp [hn]
    · intro row hrow
      have := hgrow row hrow
      simpa using this

/-- C7 (witness). -/
theorem c7_resize_rebuilds_grid_witness :
    ((0:ℚ) < 600) ∧
    (fieldUpdate zeroOracle getDefaultAnalysis 0
      (initializeField 800 600)).isSome = true := by
  refine ⟨by norm_num, ?_⟩
  exact (c7_resize_rebuilds_grid 800 600 zeroOracle getDefaultAnalysis 0
    (by norm_num)).2.2.1

/-- C8 (counterexample): on a 2×2 grid whose four cells all hold value 1
(opacity `min(0.3, 0.5) = 0.3 > 0.05`), `render` paints only cell (0,0):
the loops run to `rows - 1` and `cols - 1`, so the last row and last
column are never considered, contrary to the claim. -/
theorem c8_render_skips_last_row_col :
    fieldRender [[1, 1], [1, 1]] = some [(0, 0, 3/10)] ∧
    (0.05 : ℚ) < min 0.3 (|(1:ℚ)| * 0.5) := by
  constructor
  · show some _ = some _
    congr 1
    norm_num [List.range, List.range.loop, List.filterMap_cons]
  · norm_num

/-- C8 (amended): `render` paints exactly the cells in the first
`rows - 1` rows and first `cols - 1` columns whose opacity
`min(0.3, |value|*0.5)` exceeds 0.05 — cells of the last row and last
column are never painted. -/
theorem c8_render_painted_cells (field : List (List ℚ)) (r0 : List ℚ)
    (rest : List (List ℚ)) (hfield : field = r0 :: rest) (i j : ℕ)
    (op : ℚ) :
    ((i, j, op) ∈ (fieldRender field).getD []) ↔
      (i < field.length - 1 ∧ j < r0.length - 1 ∧
       op = min 0.3 (|(field.getD i []).getD j 0| * 0.5) ∧ 0.05 < op) := by
  subst hfield
  show (i, j, op) ∈ (some _).getD [] ↔ _
  rw [Option.getD_some, List.mem_flatMap]
  constructor
  · rintro ⟨a, ha, hmem⟩
    rw [List.mem_filterMap] at hmem
    obtain ⟨b, hb, hfb⟩ := hmem
    rw [List.mem_range] at ha hb
    by_cases hcond : (0.05:ℚ) <
        min 0.3 (|((r0 :: rest).getD a []).getD b 0| * 0.5)
    · rw [if_pos hcond] at hfb
      have h := Option.some.inj hfb
      have h1 : a = i := congrArg (fun p => p.1) h
      have h2 : b = j := congrArg (fun p => p.2.1) h
      have h3 : min 0.3 (|((r0 :: rest).getD a []).getD b 0| * 0.5) = op :=
        congrArg (fun p => p.2.2) h
      subst h1
      subst h2
      subst h3
      exact ⟨ha, hb, rfl, hcond⟩
    · rw [if_neg hcond] at hfb
      exact absurd hfb (by simp)
  · rintro ⟨hi, hj, hop, hgt⟩
    refine ⟨i, List.mem_range.mpr hi, ?_⟩
    rw [List.mem_filterMap]
    refine ⟨j, List.mem_range.mpr hj, ?_⟩
    rw [hop] at hgt ⊢
    rw [if_pos hgt]

/-- C8 (witness). -/
theorem c8_render_painted_cells_witness :
    (0, 0, (3/10 : ℚ)) ∈ (fieldRender [[(1:ℚ), 1], [1, 1]]).getD [] := by
  refine (c8_render_painted_cells [[1, 1], [1, 1]] [1, 1] [[1, 1]] rfl
    0 0 (3/10)).mpr ⟨by norm_num, by norm_num, ?_, by norm_num⟩
  norm_num

/-- C10 (counterexample): resizing to width 0 with positive height does NOT
produce a zero-row grid and the next `update` does not throw: after
`resize(0, 40)` the grid is two empty rows and `update` returns them
unchanged (a no-op), contrary to the claim's "width 0 or height 0". -/
theorem c10_width_zero_update_no_throw :
    fieldUpdate zeroOracle getDefaultAnalysis 0 (initializeField 0 40) =
      some [[], []] ∧ (initializeField 0 40).length = 2 := by
  have h1c : ⌈(40:ℚ) / 20⌉ = 2 := by norm_num
  have h1 : (⌈(40:ℚ) / 20⌉).toNat = 2 := by rw [h1c]; rfl
  have h2c : ⌈(0:ℚ) / 20⌉ = 0 := by norm_num
  have h2 : (⌈(0:ℚ) / 20⌉).toNat = 0 := by rw [h2c]; rfl
  rw [initializeField_replicate, h1, h2]
  exact ⟨rfl, rfl⟩

/-- C10 (amended): if the field is resized with height ≤ 0 (only then does
the rebuilt grid have zero rows), the next `update` reads the length of
the first row of an empty grid and throws (`none`) instead of being a
no-op; width 0 alone yields `ceil(height/20)` empty rows and a
non-throwing no-op `update`. -/
theorem c10_zero_height_update_throws (w h : ℚ) (o : MathOracle)
    (a : ResonanceAnalysis) (t : ℚ) (hh : h ≤ 0) :
    fieldUpdate o a t (initializeField w h) = none := by
  rw [initializeField_replicate, ceil_toNat_zero_of_nonpos hh]
  rfl

/-- C10 (witness). -/
theorem c10_zero_height_update_throws_witness :
    ((0:ℚ) ≤ 0) ∧
    fieldUpdate zeroOracle getDefaultAnalysis 0 (initializeField 160 0) =
      none :=
  ⟨le_refl 0, c10_zero_height_update_throws 160 0 zeroOracle
    getDefaultAnalysis 0 (le_refl 0)⟩

/-- C6 (witness). -/
theorem c6_glyph_mapping_witness :
    ((0:ℚ) ≤ 50 ∧ (50:ℚ) ≤ 100) ∧
    (generateGlyphData 50 50 50).shape = glyphShapeSpec 50 50 := by
  refine ⟨⟨by norm_num, by norm_num⟩, ?_⟩
  exact (c6_glyph_mapping 50 50 50 (by norm_num) (by norm_num) (by norm_num)
    (by norm_num) (by norm_num) (by norm_num)).1

lemma splitSingle_ne_nil (sep : Char → Bool) (l : List Char) :
    splitSingle sep l ≠ [] := by
  cases l with
  | nil => simp [splitSingle]
  | cons c rest =>
    cases hsc : sep c with
    | true => simp [splitSingle, hsc]
    | false =>
      simp only [splitSingle, hsc, Bool.false_eq_true, if_false]
      cases hsp : splitSingle sep rest <;> simp

lemma splitRuns_ne_nil (sep : Char → Bool) (l : List Char) :
    splitRuns sep l ≠ [] := by
  unfold splitRuns
  cases hsp : splitSingle sep l with
  | nil => exact absurd hsp (splitSingle_ne_nil sep l)
  | cons x xs => simp

lemma one_le_length_splitSingle (sep : Char → Bool) (l : List Char) :
    1 ≤ (splitSingle sep l).length :=
  List.length_pos.mpr (splitSingle_ne_nil sep l)

lemma one_le_sum_of_forall_one_le {l : List ℚ} (hne : l ≠ [])
    (h : ∀ x ∈ l, 1 ≤ x) : 1 ≤ l.sum := by
  cases l with
  | nil => exact absurd rfl hne
  | cons x xs =>
    have hx : 1 ≤ x := h x (List.mem_cons_self x xs)
    have hxs : 0 ≤ xs.sum :=
      List.sum_nonneg (fun y hy =>
        le_trans zero_le_one (h y (List.mem_cons_of_mem x hy)))
    rw [List.sum_cons]
    linarith

lemma calculateCognitiveLoad_ge_one (t : List Char) :
    1 ≤ calculateCognitiveLoad t := by
  unfold calculateCognitiveLoad
  apply le_min (by norm_num)
  have havg : (0:ℚ) ≤
      ((splitRuns isSpaceJS t).map (fun w => (w.length : ℚ))).sum /
        ((splitRuns isSpaceJS t).length : ℚ) := by
    apply div_nonneg
    · exact List.sum_nonneg (fun x hx => by
        rw [List.mem_map] at hx
        obtain ⟨w, _, rfl⟩ := hx
        positivity)
    · positivity
  have hsc : (1:ℚ) ≤
      ((splitRuns isSentenceSep t).map
        (fun s => ((splitSingle isClauseSep s).length : ℚ))).sum := by
    apply one_le_sum_of_forall_one_le
    · simp only [ne_eq, List.map_eq_nil_iff]
      exact splitRuns_ne_nil isSentenceSep t
    · intro x hx
      rw [List.mem_map] at hx
      obtain ⟨s, _, rfl⟩ := hx
      exact_mod_cast one_le_length_splitSingle isClauseSep s
  have hcw : (0:ℚ) ≤
      ((splitRuns isSpaceJS t).countP (fun w => decide (6 < w.length)) : ℚ) := by
    positivity
  nlinarith

lemma calculateCognitiveLoad_le (t : List Char) :
    calculateCognitiveLoad t ≤ 100 := min_le_left _ _

lemma calculateEmotionalIntensity_nonneg (t : List Char) :
    0 ≤ calculateEmotionalIntensity t := by
  unfold calculateEmotionalIntensity
  apply le_min (by norm_num)
  have h1 : (0:ℚ) ≤
      ((emotionalWords.map (fun w => (wordMatchCount w t : ℚ) * 15)).sum) :=
    List.sum_nonneg (fun x hx => by
      rw [List.mem_map] at hx
      obtain ⟨w, _, rfl⟩ := hx
      positivity)
  have h2 : (0:ℚ) ≤
      ((intensifiers.map (fun w => (wordMatchCount w t : ℚ) * 5)).sum) :=
    List.sum_nonneg (fun x hx => by
      rw [List.mem_map] at hx
      obtain ⟨w, _, rfl⟩ := hx
      positivity)
  have h3 : (0:ℚ) ≤ (punctRunsAux t 0 : ℚ) * 10 := by positivity
  linarith

lemma calculateEmotionalIntensity_le (t : List Char) :
    calculateEmotionalIntensity t ≤ 100 := min_le_left _ _

lemma calculateSymbolicDensity_nonneg (t : List Char) :
    0 ≤ calculateSymbolicDensity t := by
  unfold calculateSymbolicDensity
  apply le_min (by norm_num)
  have h1 : (0:ℚ) ≤
      ((abstractWords.map (fun w => (wordMatchCount w t : ℚ) * 20)).sum) :=
    List.sum_nonneg (fun x hx => by
      rw [List.mem_map] at hx
      obtain ⟨w, _, rfl⟩ := hx
      positivity)
  positivity

lemma calculateSymbolicDensity_le (t : List Char) :
    calculateSymbolicDensity t ≤ 100 := min_le_left _ _

lemma calculateTemporalFlow_nonneg (t : List Char) :
    0 ≤ calculateTemporalFlow t := by
  unfold calculateTemporalFlow
  apply le_min (by norm_num)
  have h1 : (0:ℚ) ≤
      ((timeWords.map (fun w => (wordMatchCount w t : ℚ) * 8)).sum) :=
    List.sum_nonneg (fun x hx => by
      rw [List.mem_map] at hx
      obtain ⟨w, _, rfl⟩ := hx
      positivity)
  have h2 : (0:ℚ) ≤
      ((transitionWords.map (fun w => (wordMatchCount w t : ℚ) * 12)).sum) :=
    List.sum_nonneg (fun x hx => by
      rw [List.mem_map] at hx
      obtain ⟨w, _, rfl⟩ := hx
      positivity)
  linarith

lemma calculateTemporalFlow_le (t : List Char) :
    calculateTemporalFlow t ≤ 100 := min_le_left _ _

lemma findEmergencePoints_sorted (t : List Char) :
    List.Sorted (fun a b => a ≤ b) (findEmergencePoints t) := by
  simp only [findEmergencePoints]
  rw [List.Sorted, List.pairwise_filterMap]
  apply List.Pairwise.imp_of_mem ?_ (List.pairwise_lt_range _)
  intro a b ha hb hab v hv v2 hv2
  rw [List.mem_range] at ha hb
  set sentences :=
    (splitRuns isSentenceSep t).filter (fun s => !(trimJS s).isEmpty) with hsent
  simp only [List.getElem?_eq_getElem ha, Option.mem_def] at hv
  simp only [List.getElem?_eq_getElem hb, Option.mem_def] at hv2
  split at hv
  next hca =>
    split at hv2
    next hcb =>
      obtain rfl := Option.some.inj hv
      obtain rfl := Option.some.inj hv2
      have hn : (0:ℚ) < (sentences.length : ℚ) := by
        have h0 : 0 < sentences.length := lt_of_le_of_lt (Nat.zero_le a) ha
        exact_mod_cast h0
      have hab2 : (a:ℚ) ≤ (b:ℚ) := by exact_mod_cast le_of_lt hab
      gcongr
    next hcb => exact absurd hv2 (by simp)
  next hca => exact absurd hv (by simp)

lemma findEmergencePoints_mem_bounds (t : List Char) :
    ∀ x ∈ findEmergencePoints t, 0 ≤ x ∧ x ≤ 100 := by
  intro x hx
  simp only [findEmergencePoints] at hx
  rw [List.mem_filterMap] at hx
  obtain ⟨i, hi, hfi⟩ := hx
  rw [List.mem_range] at hi
  set sentences :=
    (splitRuns isSentenceSep t).filter (fun s => !(trimJS s).isEmpty) with hsent
  simp only [List.getElem?_eq_getElem hi] at hfi
  split at hfi
  next hc =>
    obtain rfl := Option.some.inj hfi
    have hn : (0:ℚ) < (sentences.length : ℚ) := by
      have h0 : 0 < sentences.length := lt_of_le_of_lt (Nat.zero_le i) hi
      exact_mod_cast h0
    constructor
    · positivity
    · have hile : (i:ℚ) ≤ (sentences.length : ℚ) := by
        exact_mod_cast le_of_lt hi
      have hdiv : (i:ℚ) / (sentences.length : ℚ) ≤ 1 :=
        (div_le_one hn).mpr hile
      nlinarith
  next hc => exact absurd hfi (by simp)


lemma analyzeText_frequency_eq (text : String) :
    (analyzeText text).glyphData.frequency =
      max 0.5 (calculateEmotionalIntensity text.data / 100) := rfl

/-- C1: for every input text (including the empty string), the four scalars
of the resulting ResonanceVector lie in [0,100], the glyph frequency is at
least 0.5, and the emergence points are sorted ascending with every value
in [0,100]. -/
theorem c1_analyzeText_bounds (text : String) :
    (0 ≤ (analyzeText text).cognitiveLoad ∧
      (analyzeText text).cognitiveLoad ≤ 100) ∧
    (0 ≤ (analyzeText text).emotionalIntensity ∧
      (analyzeText text).emotionalIntensity ≤ 100) ∧
    (0 ≤ (analyzeText text).symbolicDensity ∧
      (analyzeText text).symbolicDensity ≤ 100) ∧
    (0 ≤ (analyzeText text).temporalFlow ∧
      (analyzeText text).temporalFlow ≤ 100) ∧
    (0.5 ≤ (analyzeText text).glyphData.frequency) ∧
    List.Sorted (fun a b => a ≤ b) (analyzeText text).emergencePoints ∧
    (∀ x ∈ (analyzeText text).emergencePoints, 0 ≤ x ∧ x ≤ 100) := by
  refine ⟨⟨?_, ?_⟩, ⟨?_, ?_⟩, ⟨?_, ?_⟩, ⟨?_, ?_⟩, ?_, ?_, ?_⟩
  · exact le_trans zero_le_one (calculateCognitiveLoad_ge_one text.data)
  · exact calculateCognitiveLoad_le text.data
  · exact calculateEmotionalIntensity_nonneg text.data
  · exact calculateEmotionalIntensity_le text.data
  · exact calculateSymbolicDensity_nonneg text.data
  · exact calculateSymbolicDensity_le text.data
  · exact calculateTemporalFlow_nonneg text.data
  · exact calculateTemporalFlow_le text.data
  · rw [analyzeText_frequency_eq]
    exact le_max_left _ _
  · exact findEmergencePoints_sorted text.data
  · exact findEmergencePoints_mem_bounds text.data

/-- C9: for every input text, including the empty string, the cognitive
load is at least 1: splitting any text on sentence boundaries yields at
least one segment, each contributing a clause count of at least 1, and
the other two summands are non-negative. -/
theorem c9_cognitiveLoad_ge_one (text : String) :
    1 ≤ (analyzeText text).cognitiveLoad :=
  calculateCognitiveLoad_ge_one text.data

end Glyph
